import Mathlib

/-!
Verification of the routing and consolidation pipeline of the clarys-mvp
repository.  The Python sources are shallowly embedded: pure fragments become
Lean functions over `List Char` / `String`, Python `int` becomes `ℤ`, Python
floats arising from exact divisions are idealised as `ℚ`, raising code returns
`Except`, and `None` becomes `Option`.  Concurrency (asyncio gather) is
modelled by its deterministic fan-in result.
-/

namespace Clarys

/-! ## Python string primitives (ASCII fragment used by the repository) -/

/-- Python `str.lower()` restricted to ASCII, which is all the code relies on. -/
def lowerStr (s : String) : String :=
  ⟨s.data.map Char.toLower⟩

/-- Python regex `\w` (ASCII): letters, digits and underscore. -/
def wordChar (c : Char) : Bool :=
  c.isAlphanum || c = '_'

/-- Python `s[:n]` slicing on code points. -/
def pySlice (s : String) (n : Nat) : String :=
  ⟨s.data.take n⟩

/-- Nonempty all-digit character list. -/
def allDigits (cs : List Char) : Bool :=
  !cs.isEmpty && cs.all Char.isDigit

/-- Python `pat in s` on character lists: `pat` occurs as a contiguous
subsequence. -/
def containsSeq (pat : List Char) : List Char → Bool
  | [] => pat.isEmpty
  | c :: rest => pat.isPrefixOf (c :: rest) || containsSeq pat rest

/-- Value of a digit list (most significant first). -/
def digitsVal (cs : List Char) : Nat :=
  cs.foldl (fun a c => a * 10 + (c.toNat - 48)) 0

/-- Python `int(s)` on strings: optional surrounding whitespace, optional
sign, then a nonempty digit run; anything else raises `ValueError`
(modelled as `none`). -/
def pyIntParse (s : String) : Option ℤ :=
  let cs := (s.data.dropWhile Char.isWhitespace).reverse.dropWhile Char.isWhitespace |>.reverse
  match cs with
  | '+' :: ds => if allDigits ds then some (digitsVal ds : ℤ) else none
  | '-' :: ds => if allDigits ds then some (-(digitsVal ds : ℤ)) else none
  | ds => if allDigits ds then some (digitsVal ds : ℤ) else none

/-! ## Python float formatting (`{:,.2f}` and `{:,.0f}`) on exact values

The reward sums `amount / 10^6` and `amount / 10^10` are represented exactly:
a running total `t : ℤ` stands for the real value `t / 10^10`.  Formatting
rounds half-to-even, as Python float formatting does on the exactly
representable values these claims exercise. -/

/-- Divide `n` by a positive `d`, rounding the quotient to the nearest
integer with ties to even. -/
def divRoundHalfEven (n d : ℤ) : ℤ :=
  let q := Int.fdiv n d
  let r := n - q * d
  if 2 * r < d then q
  else if d < 2 * r then q + 1
  else if q % 2 = 0 then q else q + 1

/-- Insert a comma after every three digits, on a reversed digit list. -/
def commaRevAux : List Char → Nat → List Char
  | [], _ => []
  | c :: rest, k =>
    if k = 3 then ',' :: c :: commaRevAux rest 1
    else c :: commaRevAux rest (k + 1)

/-- Decimal representation of a natural number with thousands separators,
as Python's `,` format option produces. -/
def natCommaRepr (n : Nat) : String :=
  ⟨(commaRevAux (Nat.repr n).data.reverse 0).reverse⟩

/-- Two-digit zero-padded fraction part. -/
def fracTwo (n : Nat) : String :=
  if n < 10 then "0" ++ Nat.repr n else Nat.repr n

/-- Python `f"{total:,.2f}"` where the nonnegative total is `t / 10^10`. -/
def formatCommaFixed2Scaled (t : ℤ) : String :=
  let cents := divRoundHalfEven t 100000000
  natCommaRepr (cents / 100).toNat ++ "." ++ fracTwo (cents % 100).toNat

/-- Python `f"{total:,.0f}"` where the nonnegative total is `t / 10^10`. -/
def formatCommaFixed0Scaled (t : ℤ) : String :=
  natCommaRepr (divRoundHalfEven t 10000000000).toNat

/-! ## Data model (`polkadot_api_client.ProposalData` and friends) -/

/-- One entry of a proposal's `beneficiaries` list; the code reads the keys
`amount` and `assetId` with `dict.get`, so each is optional. -/
structure Beneficiary where
  amount : Option String
  assetId : Option String
deriving Repr, DecidableEq

/-- The `ProposalData` dataclass of `app/services/polkadot_api_client.py`.
`vote_metrics` and `timeline` entries are only ever interpolated into prompt
text, so they are modelled by their rendered string forms. -/
structure ProposalData where
  id : String
  title : String
  content : String
  status : String
  created_at : String
  proposal_type : String := "ReferendumV2"
  proposer : Option String := none
  beneficiaries : List Beneficiary := []
  vote_metrics : Option String := none
  timeline : List String := []
  error : Option String := none
  calculated_reward : Option String := none
deriving Repr, DecidableEq

/-- Truthiness of an `Optional[str]` field: `None` and `""` are falsy. -/
def pyTruthyOpt : Option String → Bool
  | none => false
  | some s => s ≠ ""

/-! ## Reward Calculator (`CoordinatorAgent._calculate_reward`) -/

/-- Value of `int(beneficiary.get("amount", 0))`: a missing key yields the
integer `0`; a present string is parsed and a parse failure raises, which the
per-entry `except` clause turns into skipping the entry. -/
def beneficiaryAmount (b : Beneficiary) : Option ℤ :=
  match b.amount with
  | none => some 0
  | some s => pyIntParse s

/-- The running `(total_amount, currency)` accumulation of
`_calculate_reward`, with the total carried exactly as `value * 10^10`:
`amount / 10^6` (USDC) contributes `amount * 10^4` and `amount / 10^10`
(everything else, labelled DOT) contributes `amount`; entries with
unparsable amounts are skipped. -/
def rewardFold (bens : List Beneficiary) : ℤ × String :=
  bens.foldl
    (fun acc b =>
      match beneficiaryAmount b with
      | none => acc
      | some amt =>
        if b.assetId = some "1337" then (acc.1 + amt * 10000, "USDC")
        else (acc.1 + amt, "DOT"))
    (0, "tokens")

/-- `CoordinatorAgent._calculate_reward`: `None` without beneficiaries, the
formatted total with the last-seen currency when it is positive, else `None`. -/
def calculateReward (proposal : ProposalData) : Option String :=
  if proposal.beneficiaries.isEmpty then none
  else if 0 < (rewardFold proposal.beneficiaries).1 then
    some (formatCommaFixed2Scaled (rewardFold proposal.beneficiaries).1 ++ " " ++
      (rewardFold proposal.beneficiaries).2)
  else none

/-- A proposal record carrying only the fields a test needs. -/
def emptyProposal : ProposalData :=
  { id := "0", title := "", content := "", status := "", created_at := "" }

/-! ## Dynamic route (`CoordinatorAgent._process_dynamic_route`) -/

/-- Routing dictionary produced by `RoutingService`, with the `dict.get`
defaults the coordinator applies already folded in. -/
structure RoutingInfo where
  data_source : String := "dynamic"
  ID : List String := []
  proposal_type : String := "ReferendumV2"
  keywords : String := ""
deriving Repr, DecidableEq

/-- The body of `_process_dynamic_route`, parameterised by the external fetch
collaborator.  When `ids` is empty the guarded block is skipped and the
`return` statement reads the never-assigned local `proposal_data_list`,
raising `UnboundLocalError`. -/
def processDynamicRoute (routingInfo : RoutingInfo)
    (fetchMultipleProposals : List String → String → List ProposalData) :
    Except String (List String × List String × List ProposalData) :=
  let ids := routingInfo.ID
  let proposalType := routingInfo.proposal_type
  if ids.isEmpty then
    Except.error "UnboundLocalError: local variable \x27proposal_data_list\x27 referenced before assignment"
  else
    let fetched := fetchMultipleProposals ids proposalType
    Except.ok (ids, [], fetched.map fun p => { p with calculated_reward := calculateReward p })

/-! ## Link parsing (`CoordinatorAgent._parse_links`) -/

/-- Drop one trailing newline, mirroring that the regex anchor `$` also
matches just before a final newline. -/
def stripTrailingNewline (cs : List Char) : List Char :=
  match cs.reverse with
  | '\n' :: rest => rest.reverse
  | _ => cs

/-- Match of `r"/(referenda|post)/(\d+)$"` against one link: a maximal
trailing digit run preceded by the literal `/referenda/` (giving
`ReferendumV2`) or `/post/` (giving `Discussion`). -/
def parseLink (link : String) : Option (String × String) :=
  let cs := stripTrailingNewline link.data
  let ds := (cs.reverse.takeWhile Char.isDigit).reverse
  let stem := cs.take (cs.length - ds.length)
  if ds.isEmpty then none
  else if "/referenda/".data.isSuffixOf stem then some (⟨ds⟩, "ReferendumV2")
  else if "/post/".data.isSuffixOf stem then some (⟨ds⟩, "Discussion")
  else none

/-- `CoordinatorAgent._parse_links`: keep the links matching either shape. -/
def parseLinks (links : List String) : List (String × String) :=
  links.filterMap parseLink

/-! ## Consolidation maps (insertion-ordered Python dicts) -/

/-- Python dict assignment `m[k] = v`: update in place or append. -/
def upsert : List (String × String) → String → String → List (String × String)
  | [], k, v => [(k, v)]
  | (k0, v0) :: rest, k, v =>
    if k0 = k then (k, v) :: rest else (k0, v0) :: upsert rest k v

/-- Python dict read `m.get(k)`. -/
def lookupA : List (String × String) → String → Option String
  | [], _ => none
  | (k0, v0) :: rest, k => if k0 = k then some v0 else lookupA rest k

/-- The default type for bare numeric ids:
`"Discussion" if "discussion" in prompt.lower() else "ReferendumV2"`. -/
def defaultProposalType (prompt : String) : String :=
  if containsSeq "discussion".data (lowerStr prompt).data then "Discussion"
  else "ReferendumV2"

/-- Consolidation of the `process_prompt_with_proposals` fallback branch:
seed every extracted text id with the prompt-wide default type, then
overwrite with every link-derived `(id, type)` pair. -/
def proposalsToFetchSummary (prompt : String) (textIds links : List String) :
    List (String × String) :=
  let seeded := textIds.foldl (fun m pid => upsert m pid (defaultProposalType prompt)) []
  (parseLinks links).foldl (fun m pt => upsert m pt.1 pt.2) seeded

/-- Consolidation of the `process_prompt_with_accountability_check` fallback
branch; the code is the same dict construction as the summary pipeline. -/
def proposalsToFetchAccountability (prompt : String) (textIds links : List String) :
    List (String × String) :=
  let seeded := textIds.foldl (fun m pid => upsert m pid (defaultProposalType prompt)) []
  (parseLinks links).foldl (fun m pt => upsert m pt.1 pt.2) seeded

/-- Consolidation of the `process_prompt_with_general_chat` fallback branch:
built only when text ids exist, every text id is seeded with the literal
`"ReferendumV2"` (the prompt is not consulted), then links overwrite. -/
def proposalsToFetchGeneralChat (textIds links : List String) :
    List (String × String) :=
  if textIds.isEmpty then []
  else
    let seeded := textIds.foldl (fun m pid => upsert m pid "ReferendumV2") []
    if links.isEmpty then seeded
    else (parseLinks links).foldl (fun m pt => upsert m pt.1 pt.2) seeded

/-! ## Python `sorted` (stable insertion model) -/

/-- Insert after all elements that are `le` the new one (stable insertion). -/
def insertLeB {α : Type} (le : α → α → Bool) (x : α) : List α → List α
  | [] => [x]
  | y :: ys => if le y x then y :: insertLeB le x ys else x :: y :: ys

/-- Stable sort by repeated insertion, left to right. -/
def isortBy {α : Type} (le : α → α → Bool) (l : List α) : List α :=
  l.foldl (fun acc x => insertLeB le x acc) []

/-- Pair every string with `int(s)`, raising `ValueError` on the first
string that is not a Python integer literal. -/
def mapIntKeys : List String → Except String (List (String × ℤ))
  | [] => Except.ok []
  | s :: rest =>
    match pyIntParse s with
    | none =>
      Except.error ("ValueError: invalid literal for int() with base 10: \x27" ++ s ++ "\x27")
    | some k => Except.map (fun ps => (s, k) :: ps) (mapIntKeys rest)

/-- Python `sorted(l, key=int)`: raises on a non-numeric entry, otherwise
sorts by integer value. -/
def sortedKeyInt (l : List String) : Except String (List String) :=
  Except.map (fun ps => (isortBy (fun a b => decide (a.2 ≤ b.2)) ps).map Prod.fst)
    (mapIntKeys l)

/-- Python `sorted(l)` on strings (lexicographic). -/
def sortedLex (l : List String) : List String :=
  isortBy (fun a b => decide (a ≤ b)) l

/-! ## Extraction Merger (`CoordinatorAgent.process_prompt`) -/

/-- The aggregated result of `process_prompt`. -/
structure ExtractionResponse where
  ids : List String
  links : List String
deriving Repr, DecidableEq

/-- The aggregation step of `process_prompt`, given the two extractor
results (the LLM extractor contributes no `links` key, and the regex
extractor contributes no `ids` key, so those lists are empty in every actual
call): deduplicate, sort ids numerically and links lexically.  A non-numeric
id makes `sorted(key=int)` raise `ValueError`, modelled as `Except.error`. -/
def processPromptMerge (llmIds regexIds llmLinks regexLinks : List String) :
    Except String ExtractionResponse :=
  match sortedKeyInt ((llmIds ++ regexIds).dedup) with
  | Except.error e => Except.error e
  | Except.ok ids => Except.ok ⟨ids, sortedLex ((llmLinks ++ regexLinks).dedup)⟩

/-! ## Regex scanning primitives

Each regex of the repository is embedded as an executable matcher: given the
flag `prevWord` (whether the character before the current position is a word
character, deciding `\b`) and the remaining text, it either fails or returns
the captured strings, the rest of the text after the match, and whether the
last consumed character is a word character.  `scanAll` mirrors `re.findall`:
try the position, on success continue after the match, on failure advance one
character.  Fuel bounds the recursion; every match consumes at least one
character, so `length + 1` fuel is always enough. -/

/-- Case-insensitive literal prefix test (`re.IGNORECASE` on ASCII). -/
def ciPrefix (w l : List Char) : Bool :=
  w.isPrefixOf (l.map Char.toLower)

/-- Head of the remaining text is a word character (`\b` fails after a word
character, succeeds otherwise at the end of a match). -/
def nextWord : List Char → Bool
  | [] => false
  | c :: _ => wordChar c

/-- One matcher result: captured groups, rest of text, last char's wordness. -/
def MatchResult := List (List Char) × List Char × Bool

/-- Run a matcher at every position, `re.findall` style. -/
def scanAll (matcher : Bool → List Char → Option MatchResult) :
    Nat → Bool → List Char → List (List Char)
  | 0, _, _ => []
  | _ + 1, _, [] => []
  | fuel + 1, prevWord, c :: rest =>
    match matcher prevWord (c :: rest) with
    | some (caps, l2, pw) => caps ++ scanAll matcher fuel pw l2
    | none => scanAll matcher fuel (wordChar c) rest

/-- All captures of a matcher over a string, as strings. -/
def findMatches (matcher : Bool → List Char → Option MatchResult)
    (text : String) : List String :=
  (scanAll matcher (text.data.length + 1) false text.data).map fun cs => (⟨cs⟩ : String)

/-! ## Heuristic ID Extractor (`LLMExtractorAgent._fallback_extraction`) -/

/-- The stop-word list shared by the extractor's alphanumeric patterns. -/
def stopWordsExtract : List String :=
  ["the", "and", "or", "but", "in", "on", "at", "to", "for"]

/-- Presence test `re.search(r"https?://", text, re.IGNORECASE)`. -/
def hasUrls (text : String) : Bool :=
  containsSeq "http://".data (lowerStr text).data ||
    containsSeq "https://".data (lowerStr text).data

/-- Tail of `[^\s]*pat`: skip non-whitespace characters until `pat` matches. -/
def nonWsThen (pat : List Char) : List Char → Bool
  | [] => pat.isEmpty
  | c :: rest => pat.isPrefixOf (c :: rest) || (!c.isWhitespace && nonWsThen pat rest)

/-- Search for `https?://[^\s]*pat` anywhere in (already lowered) text. -/
def inUrlScan (pat : List Char) : List Char → Bool
  | [] => false
  | c :: rest =>
    (if "http://".data.isPrefixOf (c :: rest) then nonWsThen pat ((c :: rest).drop 7)
     else if "https://".data.isPrefixOf (c :: rest) then nonWsThen pat ((c :: rest).drop 8)
     else false) ||
      inUrlScan pat rest

/-- The double check `re.search(rf"https?://[^\s]*{re.escape(m)}", text,
re.IGNORECASE)` applied to a candidate id `m`. -/
def inUrl (m text : String) : Bool :=
  inUrlScan (lowerStr m).data (lowerStr text).data

/-- Common tail of both `proposal` patterns: `\s+(?:id\s+)?(\d+)` with the
digit run taken maximally.  Returns the digit capture and the rest. -/
def proposalTailMatch (l : List Char) : Option (List Char × List Char) :=
  if (l.takeWhile Char.isWhitespace).isEmpty then none
  else
    let l2 := l.dropWhile Char.isWhitespace
    let l3 :=
      if ciPrefix "id".data l2 && !((l2.drop 2).takeWhile Char.isWhitespace).isEmpty then
        (l2.drop 2).dropWhile Char.isWhitespace
      else l2
    let ds := l3.takeWhile Char.isDigit
    if ds.isEmpty then none else some (ds, l3.dropWhile Char.isDigit)

/-- Matcher for `r"\bproposal\s+(?:id\s+)?(\d+)(?!\S)"` (URL-present mode):
the digits must be followed by whitespace or the end of the text. -/
def proposalUrlMatcher (prevWord : Bool) (l : List Char) : Option MatchResult :=
  if prevWord then none
  else if ciPrefix "proposal".data l then
    match proposalTailMatch (l.drop 8) with
    | none => none
    | some (ds, l4) =>
      match l4 with
      | [] => some ([ds], [], true)
      | c :: _ => if c.isWhitespace then some ([ds], l4, true) else none
  else none

/-- Matcher for `r"\bproposal\s+(?:id\s+)?(\d+)"` (URL-absent mode). -/
def proposalPermMatcher (prevWord : Bool) (l : List Char) : Option MatchResult :=
  if prevWord then none
  else if ciPrefix "proposal".data l then
    match proposalTailMatch (l.drop 8) with
    | none => none
    | some (ds, l4) => some ([ds], l4, true)
  else none

/-- Matcher for `r"\b(\d{3,})\s+and\s+(\d{3,})\b"`. -/
def andPairMatcher (prevWord : Bool) (l : List Char) : Option MatchResult :=
  if prevWord then none
  else
    let d1 := l.takeWhile Char.isDigit
    if d1.length < 3 then none
    else
      let l1 := l.dropWhile Char.isDigit
      if (l1.takeWhile Char.isWhitespace).isEmpty then none
      else
        let l2 := l1.dropWhile Char.isWhitespace
        if ciPrefix "and".data l2 then
          let l3 := l2.drop 3
          if (l3.takeWhile Char.isWhitespace).isEmpty then none
          else
            let l4 := l3.dropWhile Char.isWhitespace
            let d2 := l4.takeWhile Char.isDigit
            if d2.length < 3 then none
            else
              let l5 := l4.dropWhile Char.isDigit
              if nextWord l5 then none else some ([d1, d2], l5, true)
        else none

/-- Matcher for `r"\b[A-Z]{2,}\d+\b"` with `re.IGNORECASE`. -/
def lettersDigitsMatcher (prevWord : Bool) (l : List Char) : Option MatchResult :=
  if prevWord then none
  else
    let ls := l.takeWhile Char.isAlpha
    if ls.length < 2 then none
    else
      let l2 := l.dropWhile Char.isAlpha
      let ds := l2.takeWhile Char.isDigit
      if ds.isEmpty then none
      else
        let l3 := l2.dropWhile Char.isDigit
        if nextWord l3 then none else some ([ls ++ ds], l3, true)

/-- Matcher for `r"\b[A-Z]+\d+[A-Z]*\b"` with `re.IGNORECASE`. -/
def lettersDigitsLettersMatcher (prevWord : Bool) (l : List Char) : Option MatchResult :=
  if prevWord then none
  else
    let ls := l.takeWhile Char.isAlpha
    if ls.isEmpty then none
    else
      let l2 := l.dropWhile Char.isAlpha
      let ds := l2.takeWhile Char.isDigit
      if ds.isEmpty then none
      else
        let l3 := l2.dropWhile Char.isDigit
        let ls2 := l3.takeWhile Char.isAlpha
        let l4 := l3.dropWhile Char.isAlpha
        if nextWord l4 then none else some ([ls ++ ds ++ ls2], l4, true)

/-- Does a word run contain `ID` (case-insensitively) followed by a digit? -/
def hasIdThenDigit : List Char → Bool
  | [] => false
  | c :: rest =>
    (ciPrefix "id".data (c :: rest) && (((c :: rest).drop 2).headD ' ').isDigit) ||
      hasIdThenDigit rest

/-- Matcher for `r"\b\w*ID\d+\w*\b"` with `re.IGNORECASE`: the match is the
whole word run starting at a word boundary, provided it contains `ID`
followed by a digit. -/
def wordIdDigitMatcher (prevWord : Bool) (l : List Char) : Option MatchResult :=
  if prevWord then none
  else
    let w := l.takeWhile wordChar
    if w.isEmpty then none
    else if hasIdThenDigit w then some ([w], l.dropWhile wordChar, true)
    else none

/-- Matcher for `r"\b[A-Z]{1,5}\d{2,}\b"` with `re.IGNORECASE`. -/
def lettersFewDigitsMatcher (prevWord : Bool) (l : List Char) : Option MatchResult :=
  if prevWord then none
  else
    let ls := l.takeWhile Char.isAlpha
    if ls.isEmpty || 5 < ls.length then none
    else
      let l2 := l.dropWhile Char.isAlpha
      let ds := l2.takeWhile Char.isDigit
      if ds.length < 2 then none
      else
        let l3 := l2.dropWhile Char.isDigit
        if nextWord l3 then none else some ([ls ++ ds], l3, true)

/-- Matcher for `r"\b(\d{3,})\b"`: a maximal digit run of length at least 3
delimited by word boundaries. -/
def bareNumberMatcher (prevWord : Bool) (l : List Char) : Option MatchResult :=
  if prevWord then none
  else
    let ds := l.takeWhile Char.isDigit
    if ds.length < 3 then none
    else
      let l2 := l.dropWhile Char.isDigit
      if nextWord l2 then none else some ([ds], l2, true)

/-- URL-present (conservative) branch of `_fallback_extraction`: only
`proposal N` mentions and alphanumeric identifier shapes, each double-checked
not to occur inside a URL, with the stop-word guard on the shape patterns. -/
def urlModeIds (text : String) : List String :=
  (findMatches proposalUrlMatcher text).filter (fun m => !inUrl m text) ++
    ((findMatches lettersDigitsMatcher text ++ findMatches lettersDigitsLettersMatcher text ++
        findMatches wordIdDigitMatcher text).filter fun m =>
      !inUrl m text && !stopWordsExtract.contains (lowerStr m))

/-- Processing of one shape-pattern match in the URL-absent branch: digit
runs of length at least 3 are always kept, everything else passes the
stop-word guard. -/
def permKeep (m : String) : List String :=
  if allDigits m.data && 3 ≤ m.length then [m]
  else if stopWordsExtract.contains (lowerStr m) then [] else [m]

/-- URL-absent (permissive) branch of `_fallback_extraction`. -/
def permissiveIds (text : String) : List String :=
  findMatches proposalPermMatcher text ++
    findMatches andPairMatcher text ++
    ((findMatches lettersDigitsMatcher text ++ findMatches lettersDigitsLettersMatcher text ++
        findMatches wordIdDigitMatcher text ++ findMatches lettersFewDigitsMatcher text ++
        findMatches bareNumberMatcher text).foldr (fun m acc => permKeep m ++ acc) [])

/-- The mode gate of `_fallback_extraction`; the Python code collects the
ids into a set, so only membership in the result is meaningful. -/
def fallbackExtractionIds (text : String) : List String :=
  if hasUrls text then urlModeIds text else permissiveIds text

/-! ## Request Router fallback (`RoutingService._fallback_routing_logic`) -/

/-- Matcher for `r"\b(?:proposal|referenda?|referendum|discussion)\s+(?:id\s+)?(\d+)\b"`
(run on the lowered prompt).  Alternatives are tried in backtracking order
(`referenda?` first tries `referenda`, then `referend`); the first one whose
continuation succeeds wins. -/
def routeWordIdMatcher (prevWord : Bool) (l : List Char) : Option MatchResult :=
  if prevWord then none
  else
    (["proposal".data, "referenda".data, "referend".data, "referendum".data,
        "discussion".data].findSome? fun w =>
      if w.isPrefixOf l then
        match proposalTailMatch (l.drop w.length) with
        | none => none
        | some (ds, l4) => if nextWord l4 then none else some ([ds], l4, true)
      else none)

/-- Matcher for `r"\b(\d+)\s*(?:proposal|referenda?|referendum|discussion)\b"`. -/
def routeIdWordMatcher (prevWord : Bool) (l : List Char) : Option MatchResult :=
  if prevWord then none
  else
    let ds := l.takeWhile Char.isDigit
    if ds.isEmpty then none
    else
      let l1 := l.dropWhile Char.isDigit
      let l2 := l1.dropWhile Char.isWhitespace
      (["proposal".data, "referenda".data, "referend".data, "referendum".data,
          "discussion".data].findSome? fun w =>
        if w.isPrefixOf l2 && !nextWord (l2.drop w.length) then
          some ([ds], l2.drop w.length, true)
        else none)

/-- Matcher for `r"\b(?:id|#)\s*(\d+)\b"`: the `\b` before `id` needs a
non-word predecessor, while before `#` it needs a word predecessor. -/
def routeHashIdMatcher (prevWord : Bool) (l : List Char) : Option MatchResult :=
  let afterMark (l1 : List Char) : Option MatchResult :=
    let l2 := l1.dropWhile Char.isWhitespace
    let ds := l2.takeWhile Char.isDigit
    if ds.isEmpty then none
    else
      let l3 := l2.dropWhile Char.isDigit
      if nextWord l3 then none else some ([ds], l3, true)
  if !prevWord && "id".data.isPrefixOf l then afterMark (l.drop 2)
  else if prevWord && l.headD ' ' = '#' then afterMark (l.drop 1)
  else none

/-- The ids collected by the three fallback routing patterns, in pattern
order, over the lowered prompt. -/
def routeIds (prompt : String) : List String :=
  findMatches routeWordIdMatcher (lowerStr prompt) ++
    findMatches routeIdWordMatcher (lowerStr prompt) ++
    findMatches routeHashIdMatcher (lowerStr prompt)

/-- The router's stop-word set. -/
def stopWordsRouting : List String :=
  ["tell", "me", "about", "the", "a", "an", "and", "or", "but", "in", "on",
   "at", "to", "for", "of", "with", "by"]

/-- Matcher for `r"\b\w+\b"`: maximal word-character runs. -/
def wordRunMatcher (prevWord : Bool) (l : List Char) : Option MatchResult :=
  if prevWord then none
  else
    let w := l.takeWhile wordChar
    if w.isEmpty then none else some ([w], l.dropWhile wordChar, true)

/-- `re.findall(r"\b\w+\b", s)`. -/
def wordTokens (s : String) : List String :=
  findMatches wordRunMatcher s

/-- Python `sorted(l, key=int)` restricted to the digit-run matches the
routing patterns produce (where `int` cannot raise). -/
def sortedByIntVal (l : List String) : List String :=
  isortBy (fun a b => decide ((pyIntParse a).getD 0 ≤ (pyIntParse b).getD 0)) l

/-- `RoutingService._fallback_routing_logic`. -/
def fallbackRoutingLogic (prompt : String) : RoutingInfo :=
  let uniqueIds := sortedByIntVal (routeIds prompt).dedup
  if !uniqueIds.isEmpty then
    { data_source := "dynamic", ID := uniqueIds,
      proposal_type :=
        if containsSeq "discussion".data (lowerStr prompt).data then "Discussion"
        else "ReferendumV2",
      keywords := "" }
  else
    { data_source := "algolia", ID := [], proposal_type := "",
      keywords := String.intercalate " "
        (((wordTokens (lowerStr prompt)).filter fun w =>
            !stopWordsRouting.contains w && 2 < w.length).take 5) }

/-- The SEARCH keywords exactly as the claim words them: lowercase and
tokenize the prompt, remove only the stop-word list, join the first five
remaining tokens.  Stated for comparison with `fallbackRoutingLogic`. -/
def specSearchKeywordsOnlyStopwords (prompt : String) : String :=
  String.intercalate " "
    (((wordTokens (lowerStr prompt)).filter fun w => !stopWordsRouting.contains w).take 5)

/-! ## Analysis Dispatchers: per-item detail builders -/

/-- Python `x or default` on an optional string field. -/
def optOrStr (o : Option String) (d : String) : String :=
  match o with
  | none => d
  | some s => if s = "" then d else s

/-- Python `str()` of an optional rendered value (`str(None) = "None"`). -/
def renderOptStr : Option String → String
  | none => "None"
  | some s => s

/-- Python `str()` of a list of already-rendered entries. -/
def renderList (entries : List String) : String :=
  "[" ++ String.intercalate ", " entries ++ "]"

/-- Python `s.strip()`. -/
def pyStrip (s : String) : String :=
  ⟨(s.data.dropWhile Char.isWhitespace).reverse.dropWhile Char.isWhitespace |>.reverse⟩

/-- Python `content.lower()` membership check for a list of keywords. -/
def anyContains (ws : List String) (cl : List Char) : Bool :=
  ws.any fun w => containsSeq w.data cl

/-- `GeminiAnalyzer._extract_proposal_type`. -/
def extractProposalType (content : String) : String :=
  let cl := (lowerStr content).data
  if containsSeq "child bounty".data cl || containsSeq "bounty".data cl then "Child Bounty"
  else if containsSeq "referendum".data cl then "ReferendumV2"
  else if containsSeq "treasury".data cl then "Treasury"
  else "ReferendumV2"

/-- `GeminiAnalyzer._extract_category`. -/
def extractCategory (content : String) : String :=
  let cl := (lowerStr content).data
  if anyContains ["marketing", "content creation", "social"] cl then "Marketing"
  else if anyContains ["development", "software", "app", "extension", "wallet", "ai", "tool"] cl then
    "Development"
  else if anyContains ["infrastructure", "protocol", "network"] cl then "Infrastructure"
  else if anyContains ["governance", "democracy"] cl then "Democracy"
  else "Development"

/-- `GeminiAnalyzer._extract_description`. -/
def extractDescription (content title : String) : String :=
  let sentences := content.splitOn ". "
  match (sentences.take 5).find? (fun s =>
      anyContains ["proposal", "seeks", "requests", "aims", "focuses"] (lowerStr s).data) with
  | some s =>
    let clean := pyStrip ((s.replace "\n" " ").replace "*" "")
    if 100 < clean.length then pySlice clean 100 ++ "..." else clean
  | none =>
    if containsSeq "clarys".data (lowerStr title).data then
      "AI-powered tool to reduce governance fatigue and streamline proposal analysis."
    else if containsSeq "subwallet".data (lowerStr title).data then
      "Retroactive funding for SubWallet development activities."
    else "Polkadot ecosystem development proposal."

/-- The `(total, currency)` loop of `GeminiAnalyzer._extract_reward_amount`,
total again carried as `value * 10^10`; unlike `_calculate_reward`, a parse
failure aborts the whole computation (the surrounding `except`). -/
def extractRewardFoldAux : List Beneficiary → ℤ → String → Option (ℤ × String)
  | [], t, cur => some (t, cur)
  | b :: rest, t, _ =>
    match beneficiaryAmount b with
    | none => none
    | some amt =>
      if b.assetId.getD "" = "1337" then extractRewardFoldAux rest (t + amt * 10000) "USDC"
      else extractRewardFoldAux rest (t + amt) "DOT"

/-- `GeminiAnalyzer._extract_reward_amount`. -/
def extractRewardAmount (p : ProposalData) : String :=
  if p.beneficiaries.isEmpty then "Not specified"
  else
    match extractRewardFoldAux p.beneficiaries 0 "DOT" with
    | none => "Not specified"
    | some (t, cur) =>
      if 0 < t then formatCommaFixed0Scaled t ++ " " ++ cur else "Not specified"

/-- One entry of the `comparison_data` list that
`GeminiAnalyzer.compare_proposals` interpolates into the comparison prompt;
`key_content` keeps only the first 300 characters of the content. -/
structure ComparisonEntry where
  id : String
  title : String
  reward : String
  type : String
  category : String
  created : String
  key_content : String
deriving Repr, DecidableEq

/-- The dict built per valid proposal in `compare_proposals` (lines 180-188
of `gemini_analyzer.py`). -/
def comparisonDataEntry (p : ProposalData) : ComparisonEntry :=
  { id := p.id
    title := p.title
    reward := extractRewardAmount p
    type := extractProposalType p.content
    category := extractCategory p.content
    created := if p.created_at ≠ "" then pySlice p.created_at 10 else "Not specified"
    key_content := pySlice p.content 300 }

/-- Everything before the content slice in one accountability detail block
(`AccountabilityAnalyzer.compare_proposals_accountability`). -/
def accountabilityBlockPre (p : ProposalData) : String :=
  "\n                ---\n                **Proposal Data (ID: " ++ p.id ++
    "):**\n                - **Title:** " ++ p.title ++
    "\n                - **Status:** " ++ p.status ++
    "\n                - **Creation Date:** " ++
    (if p.created_at ≠ "" then pySlice p.created_at 10 else "N/A") ++
    "\n                - **Proposer:** " ++ optOrStr p.proposer "Not specified" ++
    "\n                - **Calculated Reward:** " ++
    optOrStr p.calculated_reward "Not specified" ++
    "\n                - **Vote Metrics:** " ++ renderOptStr p.vote_metrics ++
    "\n                - **Timeline:** " ++ renderList p.timeline ++
    "\n                - **Content (first 2000 chars):** "

/-- Everything after the content slice in a multi-item detail block. -/
def detailBlockPost : String :=
  "... \n                ---\n                "

/-- One per-proposal block of the accountability comparison prompt: the
free-text content is truncated to its first 2000 characters. -/
def accountabilityDetailBlock (p : ProposalData) : String :=
  accountabilityBlockPre p ++ pySlice p.content 2000 ++ detailBlockPost

/-- Everything before the content slice of one general-chat detail block
(`GeneralChatAnalyzer.answer_question_multiple_proposals`, item index `i`). -/
def generalChatBlockPre (i : Nat) (p : ProposalData) : String :=
  "\n                ---\n                **Proposal " ++ toString i ++ " (ID: " ++ p.id ++
    "):**\n                - **Title:** " ++ p.title ++
    "\n                - **Status:** " ++ p.status ++
    "\n                - **Creation Date:** " ++
    (if p.created_at ≠ "" then pySlice p.created_at 10 else "N/A") ++
    "\n                - **Proposer:** " ++ optOrStr p.proposer "Not specified" ++
    "\n                - **Calculated Reward:** " ++
    optOrStr p.calculated_reward "Not specified" ++
    "\n                - **Vote Metrics:** " ++ renderOptStr p.vote_metrics ++
    "\n                - **Timeline:** " ++ renderList p.timeline ++
    "\n                - **Content (first 2000 chars):** "

/-- One per-proposal block of the general-chat multi-item prompt. -/
def generalChatDetailBlock (i : Nat) (p : ProposalData) : String :=
  generalChatBlockPre i p ++ pySlice p.content 2000 ++ detailBlockPost

/-- A proposal whose content exceeds both truncation bounds. -/
def longContentProposal : ProposalData :=
  { emptyProposal with content := ⟨List.replicate 2500 'a'⟩ }

/-! ## Error filtering before analysis (coordinator pipelines) -/

/-- The filter `[p for p in proposal_data_list if not (hasattr(p, "error")
and p.error)]` applied in every pipeline before analysis. -/
def validProposals (l : List ProposalData) : List ProposalData :=
  l.filter fun p => !pyTruthyOpt p.error

/-- The response of `process_prompt_with_proposals` (analysis stored as a
string; the empty-data early return uses `""`). -/
structure EnhancedExtractionResponse where
  ids : List String
  links : List String
  proposals : List ProposalData
  analysis : String
deriving Repr

/-- Steps 3-6 of `process_prompt_with_proposals` on the dynamic and fallback
paths, parameterised by the already-computed `ids`/`links`, the fetched
records, and the dispatcher (`GeminiAnalyzer.analyze_proposals`). -/
def summaryResponse (ids links : List String) (fetched : List ProposalData)
    (analyzeProposals : List ProposalData → String) : EnhancedExtractionResponse :=
  if (validProposals fetched).isEmpty then
    { ids := ids, links := links, proposals := [], analysis := "" }
  else
    { ids := ids, links := links, proposals := validProposals fetched,
      analysis := analyzeProposals (validProposals fetched) }

/-- The zero/one/many dispatch shared by the three analyzer entry points. -/
inductive AnalyzeRoute
  | noData
  | noValid
  | single (p : ProposalData)
  | multi (l : List ProposalData)
deriving Repr

/-- `GeminiAnalyzer.analyze_proposals` branching: empty input, no valid
records, exactly one valid record, or a comparison over the valid records. -/
def analyzeProposalsRoute (proposals : List ProposalData) : AnalyzeRoute :=
  if proposals.isEmpty then AnalyzeRoute.noData
  else
    let valid := validProposals proposals
    if valid.length = 0 then AnalyzeRoute.noValid
    else if valid.length = 1 then AnalyzeRoute.single (valid.headD emptyProposal)
    else AnalyzeRoute.multi valid

/-- `AccountabilityAnalyzer.analyze_proposals_accountability` branching. -/
def accountabilityRoute (proposals : List ProposalData) : AnalyzeRoute :=
  if proposals.isEmpty then AnalyzeRoute.noData
  else
    let valid := validProposals proposals
    if valid.length = 0 then AnalyzeRoute.noValid
    else if valid.length = 1 then AnalyzeRoute.single (valid.headD emptyProposal)
    else AnalyzeRoute.multi valid

/-- `GeneralChatAnalyzer.analyze_proposals_general_chat` branching. -/
def generalChatRoute (proposals : List ProposalData) : AnalyzeRoute :=
  if proposals.isEmpty then AnalyzeRoute.noData
  else
    let valid := validProposals proposals
    if valid.length = 0 then AnalyzeRoute.noValid
    else if valid.length = 1 then AnalyzeRoute.single (valid.headD emptyProposal)
    else AnalyzeRoute.multi valid

/-! ## Algolia-result analysis (`_process_algolia_result_with_gemini`) -/

/-- The Python `TypeError` text for an unexpected keyword argument. -/
def pyUnexpectedKwargError (fname kw : String) : String :=
  fname ++ "() got an unexpected keyword argument \x27" ++ kw ++ "\x27"

/-- Python call binding: reject the first keyword argument that is not a
parameter of the callee. -/
def pyCheckKwargs (fname : String) (params kwargs : List String) : Except String Unit :=
  match kwargs.find? (fun k => !params.contains k) with
  | some k => Except.error (pyUnexpectedKwargError fname k)
  | none => Except.ok ()

/-- Keyword-assignable parameters of `GeminiAnalyzer.analyze_single_proposal`
(line 113 of `gemini_analyzer.py`). -/
def analyzeSingleProposalParams : List String := ["proposal"]

/-- Keyword-assignable parameters of `GeminiAnalyzer.compare_proposals`
(line 144 of `gemini_analyzer.py`). -/
def compareProposalsParams : List String := ["proposals"]

/-- `CoordinatorAgent._process_algolia_result_with_gemini`: builds a custom
prompt (discarded here because the call below never accepts it), then calls
the single-item or comparison analyzer with the extra `custom_prompt`
keyword argument; the `except Exception` handler turns the raised
`TypeError` into the deterministic fallback string.  The analyzer bodies are
abstract parameters since they are never reached. -/
def processAlgoliaResultWithGemini (singleBody : ProposalData → String)
    (compareBody : List ProposalData → String) (prompt : String)
    (proposalDataList : List ProposalData) : String :=
  if proposalDataList.isEmpty then "No proposals were retrieved from the search API."
  else
    let callResult : Except String String :=
      if proposalDataList.length = 1 then
        Except.map (fun _ => singleBody (proposalDataList.headD emptyProposal))
          (pyCheckKwargs "analyze_single_proposal" analyzeSingleProposalParams ["custom_prompt"])
      else
        Except.map (fun _ => compareBody proposalDataList)
          (pyCheckKwargs "compare_proposals" compareProposalsParams ["custom_prompt"])
    match callResult with
    | Except.ok analysis =>
      if analysis = "" || containsSeq "Could not generate".data analysis.data then
        "Found " ++ toString proposalDataList.length ++
          " relevant proposal(s) for your query \x27" ++ prompt ++
          "\x27, but AI analysis is currently unavailable."
      else analysis
    | Except.error e =>
      "Found " ++ toString proposalDataList.length ++
        " relevant proposal(s) for your query \x27" ++ prompt ++
        "\x27, but AI analysis encountered an error: " ++ e

/-- A fetch-failure record as `fetch_proposal` builds one. -/
def errorProposal : ProposalData :=
  { emptyProposal with
    id := "7", title := "Error", status := "Error",
    error := some "HTTP error 404 for proposal 7" }

/-! ## Derived notions used in theorem statements -/

/-- The last type a link list assigns to an id (link parsing is applied left
to right with last-write-wins). -/
def lastType (ps : List (String × String)) (k : String) : Option String :=
  ps.foldl (fun acc pt => if pt.1 = k then some pt.2 else acc) none

/-- Adjacent-sorted with respect to a boolean comparison. -/
def SortedB {α : Type} (le : α → α → Bool) (l : List α) : Prop :=
  List.Chain' (fun a b => le a b = true) l

/-- Numeric comparison of id strings by their `int` value. -/
def intKeyLeB (a b : String) : Bool :=
  decide ((pyIntParse a).getD 0 ≤ (pyIntParse b).getD 0)

/-- Lexicographic comparison of strings. -/
def strLeB (a b : String) : Bool :=
  decide (a ≤ b)

/-! # Helper lemmas -/

theorem containsSeq_iff (pat : List Char) :
    ∀ l : List Char, containsSeq pat l = true ↔ pat <:+: l := by
  intro l
  induction l with
  | nil => simp [containsSeq, List.isEmpty_iff]
  | cons c rest ih =>
    simp [containsSeq, ih, List.isPrefixOf_iff_prefix, List.infix_cons_iff]

theorem lookupA_upsert (m : List (String × String)) (k v k' : String) :
    lookupA (upsert m k v) k' = if k' = k then some v else lookupA m k' := by
  induction m with
  | nil =>
    by_cases h : k' = k
    · subst h; simp [upsert, lookupA]
    · have h2 : ¬(k = k') := fun e => h e.symm
      simp [upsert, lookupA, h, h2]
  | cons p rest ih =>
    obtain ⟨k0, v0⟩ := p
    by_cases hk : k0 = k
    · subst hk
      by_cases h : k' = k0
      · subst h; simp [upsert, lookupA]
      · have h2 : ¬(k0 = k') := fun e => h e.symm
        simp [upsert, lookupA, h, h2]
    · by_cases h0 : k0 = k'
      · have hne : ¬(k' = k) := fun e => hk (h0.trans e)
        simp [upsert, lookupA, hk, h0, hne]
      · simp [upsert, lookupA, hk, h0, ih]

theorem foldl_lastStep (k : String) :
    ∀ (ps : List (String × String)) (i : Option String),
      ps.foldl (fun acc pt => if pt.1 = k then some pt.2 else acc) i =
        (lastType ps k).elim i some := by
  intro ps
  induction ps with
  | nil => intro i; rfl
  | cons pt ps ih =>
    intro i
    show ps.foldl _ (if pt.1 = k then some pt.2 else i) = _
    rw [ih]
    have hlast : lastType (pt :: ps) k =
        (lastType ps k).elim (if pt.1 = k then some pt.2 else none) some := by
      show ps.foldl _ (if pt.1 = k then some pt.2 else none) = _
      rw [ih]
    rw [hlast]
    cases hl : lastType ps k with
    | some t => simp
    | none =>
      by_cases hpt : pt.1 = k <;> simp [hpt]

theorem lookupA_foldl_upsert (k : String) :
    ∀ (ps : List (String × String)) (m : List (String × String)),
      lookupA (ps.foldl (fun m pt => upsert m pt.1 pt.2) m) k =
        (lastType ps k).elim (lookupA m k) some := by
  intro ps
  induction ps with
  | nil => intro m; rfl
  | cons pt ps ih =>
    intro m
    show lookupA (ps.foldl _ (upsert m pt.1 pt.2)) k = _
    rw [ih, lookupA_upsert]
    have hlast : lastType (pt :: ps) k =
        (lastType ps k).elim (if pt.1 = k then some pt.2 else none) some :=
      foldl_lastStep k ps _
    rw [hlast]
    cases hl : lastType ps k with
    | some t => simp
    | none =>
      by_cases hpt : pt.1 = k
      · simp [hpt]
      · have hpt2 : ¬(k = pt.1) := fun e => hpt e.symm
        simp [hpt, hpt2]

theorem lookupA_foldl_seed (v k : String) :
    ∀ (ids : List String) (m : List (String × String)),
      lookupA (ids.foldl (fun m pid => upsert m pid v) m) k =
        if k ∈ ids then some v else lookupA m k := by
  intro ids
  induction ids with
  | nil => intro m; simp
  | cons pid ids ih =>
    intro m
    show lookupA (ids.foldl _ (upsert m pid v)) k = _
    rw [ih, lookupA_upsert]
    by_cases hmem : k ∈ ids
    · simp [hmem]
    · by_cases hk : k = pid
      · simp [hmem, hk]
      · simp [hmem, hk]

theorem insertLeB_perm {α : Type} (le : α → α → Bool) (x : α) :
    ∀ l : List α, List.Perm (insertLeB le x l) (x :: l) := by
  intro l
  induction l with
  | nil => exact List.Perm.refl _
  | cons y ys ih =>
    by_cases h : le y x = true
    · simpa [insertLeB, h] using (ih.cons y).trans (List.Perm.swap x y ys)
    · simp [insertLeB, h]

theorem isortBy_foldl_perm {α : Type} (le : α → α → Bool) :
    ∀ (l acc : List α),
      List.Perm (l.foldl (fun a x => insertLeB le x a) acc) (acc ++ l) := by
  intro l
  induction l with
  | nil => intro acc; simp
  | cons x l ih =>
    intro acc
    show List.Perm (l.foldl _ (insertLeB le x acc)) _
    refine (ih (insertLeB le x acc)).trans ?_
    have h1 : List.Perm (insertLeB le x acc ++ l) ((x :: acc) ++ l) :=
      (insertLeB_perm le x acc).append_right l
    refine h1.trans ?_
    simpa using List.perm_middle.symm

theorem isortBy_perm {α : Type} (le : α → α → Bool) (l : List α) :
    List.Perm (isortBy le l) l := by
  simpa [isortBy] using isortBy_foldl_perm le l []

theorem chain'_insertLeB {α : Type} {le : α → α → Bool}
    (htot : ∀ a b, le a b = true ∨ le b a = true) (x : α) :
    ∀ l : List α, List.Chain' (fun a b => le a b = true) l →
      List.Chain' (fun a b => le a b = true) (insertLeB le x l) := by
  intro l
  induction l with
  | nil => intro _; simp [insertLeB]
  | cons y ys ih =>
    intro h
    rw [List.chain'_cons'] at h
    by_cases hyx : le y x = true
    · rw [insertLeB, if_pos hyx, List.chain'_cons']
      refine ⟨?_, ih h.2⟩
      intro z hz
      cases ys with
      | nil => simp [insertLeB] at hz; subst hz; exact hyx
      | cons w ws =>
        by_cases hwx : le w x = true
        · rw [insertLeB, if_pos hwx] at hz
          simp at hz
          subst hz
          exact h.1 w (by simp)
        · rw [insertLeB, if_neg hwx] at hz
          simp at hz
          subst hz
          exact hyx
    · rw [insertLeB, if_neg hyx, List.chain'_cons']
      refine ⟨?_, List.chain'_cons'.mpr h⟩
      intro z hz
      simp at hz
      subst hz
      rcases htot x y with hxy | hyx2
      · exact hxy
      · exact absurd hyx2 hyx

theorem chain'_isortBy {α : Type} {le : α → α → Bool}
    (htot : ∀ a b, le a b = true ∨ le b a = true) (l : List α) :
    List.Chain' (fun a b => le a b = true) (isortBy le l) := by
  suffices h : ∀ (l acc : List α), List.Chain' (fun a b => le a b = true) acc →
      List.Chain' (fun a b => le a b = true) (l.foldl (fun a x => insertLeB le x a) acc) by
    exact h l [] (by simp)
  intro l
  induction l with
  | nil => intro acc hacc; exact hacc
  | cons x l ih =>
    intro acc hacc
    exact ih (insertLeB le x acc) (chain'_insertLeB htot x acc hacc)

theorem chain'_mono_mem {α : Type} {R S : α → α → Prop} :
    ∀ {l : List α}, List.Chain' R l → (∀ a ∈ l, ∀ b ∈ l, R a b → S a b) →
      List.Chain' S l
  | [], _, _ => trivial
  | [_], _, _ => List.chain'_singleton _
  | a :: b :: l, h, hm => by
    rw [List.chain'_cons] at h ⊢
    refine ⟨hm a (by simp) b (by simp) h.1, ?_⟩
    exact chain'_mono_mem h.2 (fun x hx y hy hr => hm x (by simp [hx]) y (by simp [hy]) hr)

theorem mapIntKeys_ok :
    ∀ {l : List String}, (∀ s ∈ l, (pyIntParse s).isSome = true) →
      mapIntKeys l = Except.ok (l.map fun s => (s, (pyIntParse s).getD 0)) := by
  intro l
  induction l with
  | nil => intro _; rfl
  | cons s rest ih =>
    intro h
    obtain ⟨k, hk⟩ := Option.isSome_iff_exists.mp (h s (by simp))
    rw [mapIntKeys, hk, ih (fun x hx => h x (by simp [hx]))]
    simp [Except.map, hk]

theorem headD_mem {α : Type} {l : List α} (h : l ≠ []) (d : α) : l.head?.getD d ∈ l := by
  cases l with
  | nil => exact absurd rfl h
  | cons x xs => simp

theorem string_eta (s : String) : (⟨s.data⟩ : String) = s := by
  cases s
  rfl

theorem wordChar_of_isDigit {c : Char} (h : c.isDigit = true) : wordChar c = true := by
  simp [wordChar, Char.isAlphanum, h]

theorem takeWhile_all_append {p : Char → Bool} :
    ∀ (u v : List Char), (∀ c ∈ u, p c = true) →
      (∀ c, v.head? = some c → p c = false) →
      (u ++ v).takeWhile p = u ∧ (u ++ v).dropWhile p = v := by
  intro u
  induction u with
  | nil =>
    intro v _ hv
    cases v with
    | nil => simp
    | cons c w => simp [List.takeWhile_cons, List.dropWhile_cons, hv c rfl]
  | cons c u ih =>
    intro v hu hv
    have hc : p c = true := hu c (by simp)
    have := ih v (fun x hx => hu x (by simp [hx])) hv
    simp [List.takeWhile_cons, List.dropWhile_cons, hc, this.1, this.2]

theorem takeWhile_append_of_mem_not {p : Char → Bool} :
    ∀ (u v : List Char), (∃ c ∈ u, p c = false) →
      (u ++ v).takeWhile p = u.takeWhile p ∧
        (u ++ v).dropWhile p = u.dropWhile p ++ v := by
  intro u
  induction u with
  | nil =>
    intro v h
    obtain ⟨c, hc, _⟩ := h
    exact absurd hc (by simp)
  | cons c u ih =>
    intro v h
    by_cases hc : p c = true
    · obtain ⟨d, hd, hpd⟩ := h
      have hdu : d ∈ u := by
        rcases List.mem_cons.mp hd with rfl | hdu
        · rw [hc] at hpd; exact absurd hpd (by simp)
        · exact hdu
      have := ih v ⟨d, hdu, hpd⟩
      simp [List.takeWhile_cons, List.dropWhile_cons, hc, this.1, this.2]
    · have hc' : p c = false := by cases hp : p c; rfl; exact absurd hp hc
      simp [List.takeWhile_cons, List.dropWhile_cons, hc']

theorem dropWhile_ne_nil_of_mem_not {p : Char → Bool} {u : List Char}
    (h : ∃ c ∈ u, p c = false) : u.dropWhile p ≠ [] := by
  intro he
  obtain ⟨c, hc, hpc⟩ := h
  have := (List.dropWhile_eq_nil_iff.mp he) c hc
  rw [this] at hpc
  cases hpc

theorem getLast?_dropWhile {p : Char → Bool} :
    ∀ u : List Char, u.dropWhile p ≠ [] → (u.dropWhile p).getLast? = u.getLast? := by
  intro u
  induction u with
  | nil => intro h; exact absurd rfl h
  | cons c u ih =>
    intro h
    by_cases hc : p c = true
    · rw [List.dropWhile_cons_of_pos hc] at h ⊢
      have hu : u ≠ [] := by
        intro e
        rw [e] at h
        exact h rfl
      rw [ih h]
      cases u with
      | nil => exact absurd rfl hu
      | cons x xs => exact (List.getLast?_cons_cons).symm
    · have hc' : ¬ p c := fun e => hc e
      rw [List.dropWhile_cons_of_neg hc']

theorem scanAll_cons_none {matcher : Bool → List Char → Option MatchResult}
    {fuel : Nat} {prevW : Bool} {c : Char} {rest : List Char}
    (h : matcher prevW (c :: rest) = none) :
    scanAll matcher (fuel + 1) prevW (c :: rest) =
      scanAll matcher fuel (wordChar c) rest := by
  simp [scanAll, h]

theorem scanAll_cons_some {matcher : Bool → List Char → Option MatchResult}
    {fuel : Nat} {prevW : Bool} {c : Char} {rest caps l2 : List Char}
    {pw : Bool} (h : matcher prevW (c :: rest) = some ([caps], l2, pw)) :
    scanAll matcher (fuel + 1) prevW (c :: rest) =
      caps :: scanAll matcher fuel pw l2 := by
  simp [scanAll, h]

theorem bareNumberMatcher_at_bare {sd post : List Char}
    (hdig : ∀ c ∈ sd, c.isDigit = true) (hlen : 3 ≤ sd.length)
    (hpost : ∀ c, post.head? = some c → wordChar c = false) :
    bareNumberMatcher false (sd ++ post) = some ([sd], post, true) := by
  have hpost' : ∀ c, post.head? = some c → c.isDigit = false := by
    intro c hc
    cases hd : c.isDigit
    · rfl
    · have := hpost c hc
      rw [wordChar_of_isDigit hd] at this
      cases this
  obtain ⟨ht, hd⟩ := takeWhile_all_append sd post hdig hpost'
  have hnext : nextWord post = false := by
    cases hp : post with
    | nil => rfl
    | cons c w => simpa [nextWord] using hpost c (by rw [hp]; rfl)
  simp [bareNumberMatcher, ht, hd, Nat.not_lt.mpr hlen, hnext]

theorem scanAll_bare_complete {sd post : List Char}
    (hdig : ∀ c ∈ sd, c.isDigit = true) (hlen3 : 3 ≤ sd.length)
    (hpost : ∀ c, post.head? = some c → wordChar c = false) :
    ∀ (fuel : Nat) (pre : List Char) (prevW : Bool),
      (pre = [] → prevW = false) →
      (∀ c, pre.getLast? = some c → wordChar c = false) →
      pre.length + sd.length + post.length + 1 ≤ fuel →
      sd ∈ scanAll bareNumberMatcher fuel prevW (pre ++ sd ++ post) := by
  intro fuel
  induction fuel with
  | zero => intro pre prevW _ _ hf; exact absurd hf (by omega)
  | succ fuel ih =>
    intro pre prevW hprevW hlast hf
    cases pre with
    | nil =>
      have hw : prevW = false := hprevW rfl
      subst hw
      cases hsd : sd with
      | nil => rw [hsd] at hlen3; exact absurd hlen3 (by decide)
      | cons d sd' =>
        rw [← hsd]
        have hm : bareNumberMatcher false (d :: (sd' ++ post)) = some ([sd], post, true) := by
          rw [← List.cons_append, ← hsd]
          exact bareNumberMatcher_at_bare hdig hlen3 hpost
        have hform : ([] : List Char) ++ sd ++ post = d :: (sd' ++ post) := by
          simp [hsd]
        rw [hform, scanAll_cons_some hm]
        exact List.mem_cons_self _ _
    | cons c pre' =>
      have hform : (c :: pre') ++ sd ++ post = c :: (pre' ++ sd ++ post) := by simp
      rw [hform]
      have hrec : sd ∈ scanAll bareNumberMatcher fuel (wordChar c) (pre' ++ sd ++ post) := by
        refine ih pre' (wordChar c) ?_ ?_ ?_
        · intro he
          subst he
          exact hlast c rfl
        · intro x hx
          have hpre' : pre' ≠ [] := by
            intro e
            rw [e] at hx
            cases hx
          refine hlast x ?_
          cases pre' with
          | nil => exact absurd rfl hpre'
          | cons y ys => rw [List.getLast?_cons_cons]; exact hx
        · simp only [List.length_cons] at hf
          omega
      cases hpw : prevW with
      | true =>
        have hm : bareNumberMatcher true (c :: (pre' ++ sd ++ post)) = none := by
          simp [bareNumberMatcher]
        rw [scanAll_cons_none hm]
        exact hrec
      | false =>
        set l := c :: (pre' ++ sd ++ post) with hl
        by_cases h3 : (l.takeWhile Char.isDigit).length < 3
        · have hm : bareNumberMatcher false l = none := by
            rw [bareNumberMatcher, if_neg (by simp), if_pos h3]
          rw [scanAll_cons_none hm]
          exact hrec
        · by_cases hnw : nextWord (l.dropWhile Char.isDigit) = true
          · have hm : bareNumberMatcher false l = none := by
              rw [bareNumberMatcher, if_neg (by simp), if_neg h3, if_pos hnw]
            rw [scanAll_cons_none hm]
            exact hrec
          · have hm : bareNumberMatcher false l =
                some ([l.takeWhile Char.isDigit], l.dropWhile Char.isDigit, true) := by
              rw [bareNumberMatcher, if_neg (by simp), if_neg h3, if_neg hnw]
            rw [scanAll_cons_some hm]
            -- the matched digit run lies inside `pre`, whose last character
            -- is a non-word (hence non-digit) separator
            have hg := List.getLast?_eq_getLast (c :: pre') (by simp)
            have hgmem : (c :: pre').getLast (by simp) ∈ c :: pre' :=
              List.mem_of_mem_getLast? (by rw [hg]; rfl)
            have hgw : wordChar ((c :: pre').getLast (by simp)) = false :=
              hlast _ hg
            have hgd : Char.isDigit ((c :: pre').getLast (by simp)) = false := by
              cases hd : Char.isDigit ((c :: pre').getLast (by simp))
              · rfl
              · rw [wordChar_of_isDigit hd] at hgw; cases hgw
            have hex : ∃ x ∈ c :: pre', Char.isDigit x = false :=
              ⟨_, hgmem, hgd⟩
            have hlform : l = (c :: pre') ++ (sd ++ post) := by simp [hl]
            have hsplit := takeWhile_append_of_mem_not (c :: pre') (sd ++ post) hex
            have htakeL : l.takeWhile Char.isDigit = (c :: pre').takeWhile Char.isDigit := by
              rw [hlform]; exact hsplit.1
            have hdropL : l.dropWhile Char.isDigit =
                (c :: pre').dropWhile Char.isDigit ++ (sd ++ post) := by
              rw [hlform]; exact hsplit.2
            set pre2 := (c :: pre').dropWhile Char.isDigit with hpre2
            have hpre2ne : pre2 ≠ [] := dropWhile_ne_nil_of_mem_not hex
            have hlast2 : ∀ x, pre2.getLast? = some x → wordChar x = false := by
              intro x hx
              rw [hpre2, getLast?_dropWhile _ hpre2ne] at hx
              exact hlast x hx
            have hsum : ((c :: pre').takeWhile Char.isDigit).length + pre2.length =
                (c :: pre').length := by
              rw [hpre2, ← List.length_append,
                List.takeWhile_append_dropWhile (p := Char.isDigit) (l := c :: pre')]
            simp only [List.length_cons] at hsum
            have hfull : sd ∈ scanAll bareNumberMatcher fuel true (pre2 ++ sd ++ post) := by
              refine ih pre2 true (fun h => absurd h hpre2ne) hlast2 ?_
              rw [htakeL] at h3
              simp only [List.length_cons] at hf
              omega
            refine List.mem_cons_of_mem _ ?_
            rw [hdropL, ← List.append_assoc]
            exact hfull

theorem nonWsThen_complete (pat : List Char) :
    ∀ (mid rest : List Char), (∀ c ∈ mid, c.isWhitespace = false) →
      nonWsThen pat (mid ++ (pat ++ rest)) = true := by
  intro mid
  induction mid with
  | nil =>
    intro rest _
    cases hp : pat with
    | nil =>
      cases rest with
      | nil => rfl
      | cons c w => simp [nonWsThen, List.isPrefixOf]
    | cons p ps =>
      rw [← hp]
      have hpre : pat.isPrefixOf (pat ++ rest) = true :=
        List.isPrefixOf_iff_prefix.mpr ⟨rest, rfl⟩
      rw [hp] at hpre ⊢
      simp only [List.nil_append, List.cons_append] at hpre ⊢
      rw [nonWsThen]
      simp [hpre]
  | cons c mid' ih =>
    intro rest hmid
    simp only [List.cons_append]
    rw [nonWsThen]
    have hc : c.isWhitespace = false := hmid c (by simp)
    have := ih rest (fun x hx => hmid x (by simp [hx]))
    simp [hc, this]

theorem inUrlScan_complete (pat : List Char) :
    ∀ (a : List Char) (mid b scheme : List Char),
      (scheme = "http://".data ∨ scheme = "https://".data) →
      (∀ c ∈ mid, c.isWhitespace = false) →
      inUrlScan pat (a ++ (scheme ++ (mid ++ (pat ++ b)))) = true := by
  intro a
  induction a with
  | nil =>
    intro mid b scheme hs hmid
    simp only [List.nil_append]
    rcases hs with rfl | rfl
    · have hh : "http://".data = 'h' :: "ttp://".data := rfl
      rw [hh, List.cons_append, inUrlScan]
      have hpre : "http://".data.isPrefixOf
          ('h' :: ("ttp://".data ++ (mid ++ (pat ++ b)))) = true := by
        refine List.isPrefixOf_iff_prefix.mpr ⟨mid ++ (pat ++ b), ?_⟩
        rw [hh]
        simp
      rw [hpre]
      have hdrop : ('h' :: ("ttp://".data ++ (mid ++ (pat ++ b)))).drop 7 =
          mid ++ (pat ++ b) := rfl
      simp [hdrop, nonWsThen_complete pat mid b hmid]
    · have hh : "https://".data = 'h' :: "ttps://".data := rfl
      rw [hh, List.cons_append, inUrlScan]
      have hnot : "http://".data.isPrefixOf
          ('h' :: ("ttps://".data ++ (mid ++ (pat ++ b)))) = false := by
        simp [List.isPrefixOf]
      have hpre : "https://".data.isPrefixOf
          ('h' :: ("ttps://".data ++ (mid ++ (pat ++ b)))) = true := by
        refine List.isPrefixOf_iff_prefix.mpr ⟨mid ++ (pat ++ b), ?_⟩
        rw [hh]
        simp
      rw [hnot, hpre]
      have hdrop : ('h' :: ("ttps://".data ++ (mid ++ (pat ++ b)))).drop 8 =
          mid ++ (pat ++ b) := rfl
      simp [hdrop, nonWsThen_complete pat mid b hmid]
  | cons c a' ih =>
    intro mid b scheme hs hmid
    simp only [List.cons_append]
    rw [inUrlScan]
    simp [ih mid b scheme hs hmid]

theorem urlModeIds_not_mem {s text : String} (h : inUrl s text = true) :
    s ∉ urlModeIds text := by
  intro hmem
  rcases List.mem_append.mp hmem with h1 | h2
  · have := (List.mem_filter.mp h1).2
    rw [h] at this
    cases this
  · have := (List.mem_filter.mp h2).2
    rw [h] at this
    simp at this

theorem mem_foldr_permKeep :
    ∀ (L : List String) (m : String), m ∈ L → allDigits m.data = true →
      3 ≤ m.length → m ∈ L.foldr (fun x acc => permKeep x ++ acc) [] := by
  intro L
  induction L with
  | nil => intro m hm; cases hm
  | cons x L ih =>
    intro m hm hdig hlen
    rcases List.mem_cons.mp hm with rfl | hmL
    · have hk : permKeep m = [m] := by
        simp [permKeep, hdig, hlen]
      show m ∈ permKeep m ++ _
      rw [hk]
      simp
    · exact List.mem_append_right _ (ih m hmL hdig hlen)

/-! # Claim theorems -/

/-- C1: the claim that for every DYNAMIC routing decision the dynamic-route
handler returns a (possibly empty) result tuple fails on the code: with an
empty id list the guarded fetch block is skipped and the `return` statement
reads the never-assigned `proposal_data_list`, raising `UnboundLocalError`
per-request instead of returning `([], [], [])`. -/
theorem dynamicRouteRaisesOnEmptyIds :
    processDynamicRoute
        { data_source := "dynamic", ID := [], proposal_type := "ReferendumV2", keywords := "" }
        (fun _ _ => []) =
      Except.error
        "UnboundLocalError: local variable \x27proposal_data_list\x27 referenced before assignment" :=
  rfl

/-- C2 counterexample: the heuristic extractor contributes the non-numeric
token `ID123` for the prompt `"ID123"`, and with that contribution the merge
step raises `ValueError` from `sorted(key=int)` instead of returning an
`ExtractionResult`. -/
theorem mergeRaisesOnNonNumericId :
    "ID123" ∈ fallbackExtractionIds "ID123" ∧
    processPromptMerge ["ID123"] [] [] [] =
      Except.error "ValueError: invalid literal for int() with base 10: \x27ID123\x27" :=
  ⟨by decide, rfl⟩

/-- C2 (amended): whenever every contributed id token parses as a Python
integer, the Extraction Merger returns an `ExtractionResult` whose ids are
deduplicated and sorted numerically and whose links are deduplicated and
sorted lexically; a non-numeric id token instead makes the numeric sort
raise `ValueError`, which propagates. -/
theorem mergeDedupSortsWhenNumeric (llmIds regexIds llmLinks regexLinks : List String)
    (h : ∀ s ∈ llmIds ++ regexIds, (pyIntParse s).isSome = true) :
    ∃ r, processPromptMerge llmIds regexIds llmLinks regexLinks = Except.ok r ∧
      r.ids.Nodup ∧ SortedB intKeyLeB r.ids ∧
      (∀ s, s ∈ r.ids ↔ s ∈ llmIds ++ regexIds) ∧
      r.links.Nodup ∧ SortedB strLeB r.links ∧
      (∀ s, s ∈ r.links ↔ s ∈ llmLinks ++ regexLinks) := by
  have hps : mapIntKeys ((llmIds ++ regexIds).dedup) =
      Except.ok (((llmIds ++ regexIds).dedup).map fun s => (s, (pyIntParse s).getD 0)) :=
    mapIntKeys_ok (fun s hs => h s (List.mem_dedup.mp hs))
  set pairs := ((llmIds ++ regexIds).dedup).map fun s => (s, (pyIntParse s).getD 0) with hpairs
  set sortedPairs := isortBy (fun a b : String × ℤ => decide (a.2 ≤ b.2)) pairs with hsorted
  have hperm : List.Perm sortedPairs pairs := isortBy_perm _ _
  have hfst : pairs.map Prod.fst = (llmIds ++ regexIds).dedup := by
    rw [hpairs, List.map_map]
    exact List.map_id ((llmIds ++ regexIds).dedup)
  have hpermFst : List.Perm (sortedPairs.map Prod.fst) ((llmIds ++ regexIds).dedup) := by
    rw [← hfst]; exact hperm.map Prod.fst
  have hlinksPerm : List.Perm (sortedLex ((llmLinks ++ regexLinks).dedup))
      ((llmLinks ++ regexLinks).dedup) := isortBy_perm _ _
  refine ⟨⟨sortedPairs.map Prod.fst, sortedLex ((llmLinks ++ regexLinks).dedup)⟩,
    ?_, ?_, ?_, ?_, ?_, ?_, ?_⟩
  · simp [processPromptMerge, sortedKeyInt, hps, Except.map, hpairs, hsorted]
  · exact hpermFst.nodup_iff.mpr (List.nodup_dedup _)
  · show List.Chain' (fun a b => intKeyLeB a b = true) (sortedPairs.map Prod.fst)
    rw [List.chain'_map]
    have hsortedChain : List.Chain' (fun a b : String × ℤ => decide (a.2 ≤ b.2) = true)
        sortedPairs :=
      chain'_isortBy (fun a b => by
        rcases le_total a.2 b.2 with hle | hle
        · exact Or.inl (by simpa using hle)
        · exact Or.inr (by simpa using hle)) pairs
    refine chain'_mono_mem hsortedChain ?_
    intro a ha b hb hab
    have hav : a.2 = (pyIntParse a.1).getD 0 := by
      have : a ∈ pairs := hperm.mem_iff.mp ha
      obtain ⟨s, _, rfl⟩ := List.mem_map.mp this
      rfl
    have hbv : b.2 = (pyIntParse b.1).getD 0 := by
      have : b ∈ pairs := hperm.mem_iff.mp hb
      obtain ⟨s, _, rfl⟩ := List.mem_map.mp this
      rfl
    have hab2 : a.2 ≤ b.2 := by simpa using hab
    rw [hav, hbv] at hab2
    simpa [intKeyLeB] using hab2
  · intro s
    rw [hpermFst.mem_iff, List.mem_dedup]
  · exact hlinksPerm.nodup_iff.mpr (List.nodup_dedup _)
  · show List.Chain' (fun a b => strLeB a b = true) (sortedLex ((llmLinks ++ regexLinks).dedup))
    exact chain'_isortBy (fun a b => by
      rcases le_total a b with hle | hle
      · exact Or.inl (by simpa [strLeB] using hle)
      · exact Or.inr (by simpa [strLeB] using hle)) _
  · intro s
    rw [hlinksPerm.mem_iff, List.mem_dedup]

/-- C2 witness: a concrete all-numeric merge. -/
theorem mergeDedupSortsWhenNumeric_witness :
    ∃ r, processPromptMerge ["1680", "1679"] ["1679"] ["https://b.io"] ["https://a.io"] =
        Except.ok r ∧
      r.ids.Nodup ∧ SortedB intKeyLeB r.ids ∧
      (∀ s, s ∈ r.ids ↔ s ∈ ["1680", "1679"] ++ ["1679"]) ∧
      r.links.Nodup ∧ SortedB strLeB r.links ∧
      (∀ s, s ∈ r.links ↔ s ∈ ["https://b.io"] ++ ["https://a.io"]) :=
  mergeDedupSortsWhenNumeric ["1680", "1679"] ["1679"] ["https://b.io"] ["https://a.io"]
    (by decide)

/-- C3: the Reward Calculator maps the single USDC beneficiary to
`"1.00 USDC"`, the single DOT beneficiary to `"1.00 DOT"`, the empty
beneficiary list to `none`, and returns `none` for every proposal whose
accumulated total is zero. -/
theorem rewardCalculatorSpec :
    calculateReward
        { emptyProposal with beneficiaries := [⟨some "1000000", some "1337"⟩] } =
      some "1.00 USDC" ∧
    calculateReward
        { emptyProposal with beneficiaries := [⟨some "10000000000", some "0"⟩] } =
      some "1.00 DOT" ∧
    calculateReward { emptyProposal with beneficiaries := [] } = none ∧
    ∀ p : ProposalData, (rewardFold p.beneficiaries).1 = 0 → calculateReward p = none := by
  refine ⟨by decide, by decide, by decide, ?_⟩
  intro p h
  simp [calculateReward, h]

/-- C3 witness: a beneficiary list whose accumulated total is zero. -/
theorem rewardCalculatorSpec_witness :
    calculateReward { emptyProposal with beneficiaries := [⟨some "0", some "1337"⟩] } = none :=
  rewardCalculatorSpec.2.2.2 _ (by decide)

/-- C4: in the consolidation, a link-derived type always overwrites the
text-derived default type for the same id; concretely, text id 1679 plus
link `.../referenda/1679` ends as ReferendumV2, and link `.../post/3313`
alone maps 3313 to Discussion and places it in the final id list. -/
theorem linkTypeOverridesTextDefault :
    (∀ (prompt : String) (textIds links : List String) (pid t : String),
        lastType (parseLinks links) pid = some t →
        lookupA (proposalsToFetchSummary prompt textIds links) pid = some t) ∧
    lookupA (proposalsToFetchSummary "Compare proposal 1679" ["1679"]
        ["https://polkadot.polkassembly.io/referenda/1679"]) "1679" = some "ReferendumV2" ∧
    lookupA (proposalsToFetchSummary "What about this link" []
        ["https://polkadot.polkassembly.io/post/3313"]) "3313" = some "Discussion" ∧
    sortedKeyInt ((proposalsToFetchSummary "What about this link" []
        ["https://polkadot.polkassembly.io/post/3313"]).map Prod.fst) = Except.ok ["3313"] := by
  refine ⟨?_, by decide, by decide, rfl⟩
  intro prompt textIds links pid t hlast
  have hdef : proposalsToFetchSummary prompt textIds links =
      (parseLinks links).foldl (fun m pt => upsert m pt.1 pt.2)
        (textIds.foldl (fun m pid => upsert m pid (defaultProposalType prompt)) []) := rfl
  rw [hdef, lookupA_foldl_upsert, hlast]
  rfl

/-- C4 witness: a link assignment overriding a text id. -/
theorem linkTypeOverridesTextDefault_witness :
    lookupA (proposalsToFetchSummary "about 9" ["9"] ["https://a.bc/post/9"]) "9" =
      some "Discussion" :=
  linkTypeOverridesTextDefault.1 "about 9" ["9"] ["https://a.bc/post/9"] "9" "Discussion"
    (by decide)

/-- C5 counterexample: for the prompt `"Tell me about discussion 3313"` the
word `discussion` occurs, yet the general-Q&A consolidation assigns the bare
id 3313 the default type ReferendumV2 while the summary consolidation
assigns Discussion — the claimed rule does not hold on every path. -/
theorem generalChatDefaultTypeDiffers :
    containsSeq "discussion".data (lowerStr "Tell me about discussion 3313").data = true ∧
    lookupA (proposalsToFetchGeneralChat ["3313"] []) "3313" = some "ReferendumV2" ∧
    lookupA (proposalsToFetchSummary "Tell me about discussion 3313" ["3313"] []) "3313" =
      some "Discussion" ∧
    ("ReferendumV2" : String) ≠ "Discussion" :=
  ⟨by decide, by decide, by decide, by decide⟩

/-- C5 (amended): the summary and accountability consolidations assign every
bare numeric id the default DISCUSSION exactly when the literal word
`discussion` occurs in the lowered prompt and REFERENDUM otherwise, while
the general-Q&A consolidation always assigns REFERENDUM regardless of the
prompt. -/
theorem defaultTypePerPipeline :
    (∀ prompt : String, defaultProposalType prompt = "Discussion" ↔
        containsSeq "discussion".data (lowerStr prompt).data = true) ∧
    ∀ (prompt : String) (textIds links : List String) (pid : String),
      pid ∈ textIds → lastType (parseLinks links) pid = none →
      lookupA (proposalsToFetchSummary prompt textIds links) pid =
          some (defaultProposalType prompt) ∧
        lookupA (proposalsToFetchAccountability prompt textIds links) pid =
          some (defaultProposalType prompt) ∧
        lookupA (proposalsToFetchGeneralChat textIds links) pid = some "ReferendumV2" := by
  constructor
  · intro prompt
    unfold defaultProposalType
    by_cases h : containsSeq "discussion".data (lowerStr prompt).data = true
    · simp [h]
    · simp [h]
  · intro prompt textIds links pid hmem hnone
    have hseed : ∀ v : String,
        lookupA (textIds.foldl (fun m pid => upsert m pid v) []) pid = some v := by
      intro v
      rw [lookupA_foldl_seed]
      simp [hmem]
    refine ⟨?_, ?_, ?_⟩
    · have hdef : proposalsToFetchSummary prompt textIds links =
          (parseLinks links).foldl (fun m pt => upsert m pt.1 pt.2)
            (textIds.foldl (fun m pid => upsert m pid (defaultProposalType prompt)) []) := rfl
      rw [hdef, lookupA_foldl_upsert, hnone]
      exact hseed _
    · have hdef : proposalsToFetchAccountability prompt textIds links =
          (parseLinks links).foldl (fun m pt => upsert m pt.1 pt.2)
            (textIds.foldl (fun m pid => upsert m pid (defaultProposalType prompt)) []) := rfl
      rw [hdef, lookupA_foldl_upsert, hnone]
      exact hseed _
    · have hne : textIds.isEmpty = false := by
        cases textIds with
        | nil => simp at hmem
        | cons x xs => rfl
      cases hl : links.isEmpty with
      | true =>
        have : links = [] := List.isEmpty_iff.mp hl
        subst this
        have hdef : proposalsToFetchGeneralChat textIds [] =
            textIds.foldl (fun m pid => upsert m pid "ReferendumV2") [] := by
          simp [proposalsToFetchGeneralChat, hne]
        rw [hdef]
        exact hseed _
      | false =>
        have hdef : proposalsToFetchGeneralChat textIds links =
            (parseLinks links).foldl (fun m pt => upsert m pt.1 pt.2)
              (textIds.foldl (fun m pid => upsert m pid "ReferendumV2") []) := by
          simp [proposalsToFetchGeneralChat, hne, hl]
        rw [hdef, lookupA_foldl_upsert, hnone]
        exact hseed _

/-- C5 witness: a prompt containing `discussion` with a bare text id. -/
theorem defaultTypePerPipeline_witness :
    lookupA (proposalsToFetchSummary "discussion stuff" ["999"] []) "999" =
        some (defaultProposalType "discussion stuff") ∧
      lookupA (proposalsToFetchAccountability "discussion stuff" ["999"] []) "999" =
        some (defaultProposalType "discussion stuff") ∧
      lookupA (proposalsToFetchGeneralChat ["999"] []) "999" = some "ReferendumV2" :=
  defaultTypePerPipeline.2 "discussion stuff" ["999"] [] "999" (by decide) (by decide)

/-- C6 counterexample: for a proposal with 2500 characters of content the
comparison dispatcher's per-item data keeps only the first 300 characters,
not the first 2000 the claim asserts for every multi-item dispatcher. -/
theorem comparisonTruncatesTo300 :
    (comparisonDataEntry longContentProposal).key_content =
        pySlice longContentProposal.content 300 ∧
      (comparisonDataEntry longContentProposal).key_content ≠
        pySlice longContentProposal.content 2000 := by
  refine ⟨rfl, ?_⟩
  intro h
  have hlen := congrArg (fun s : String => s.data.length) h
  dsimp only at hlen
  have h300 : ((comparisonDataEntry longContentProposal).key_content).data.length =
      ((List.replicate 2500 'a').take 300).length := rfl
  have h2000 : (pySlice longContentProposal.content 2000).data.length =
      ((List.replicate 2500 'a').take 2000).length := rfl
  rw [h300, h2000, List.length_take, List.length_take, List.length_replicate] at hlen
  omega

/-- C6 (amended): the accountability and general-Q&A multi-item detail
blocks embed exactly the first 2000 characters of each proposal's free-text
content, while the comparison dispatcher's per-item data carries only the
first 300 characters. -/
theorem multiItemContentTruncation :
    ∀ (p : ProposalData) (i : Nat),
      (pySlice p.content 2000).data <:+: (accountabilityDetailBlock p).data ∧
      (pySlice p.content 2000).data <:+: (generalChatDetailBlock i p).data ∧
      (comparisonDataEntry p).key_content = pySlice p.content 300 := by
  intro p i
  refine ⟨⟨(accountabilityBlockPre p).data, detailBlockPost.data, ?_⟩,
    ⟨(generalChatBlockPre i p).data, detailBlockPost.data, ?_⟩, rfl⟩
  · show _ ++ _ ++ _ = (accountabilityBlockPre p ++ pySlice p.content 2000 ++
      detailBlockPost).data
    simp [String.data_append]
  · show _ ++ _ ++ _ = (generalChatBlockPre i p ++ pySlice p.content 2000 ++
      detailBlockPost).data
    simp [String.data_append]

/-- Helper for C8: the single-record branch of the shared analyzer dispatch
only ever receives an error-free record. -/
theorem singleRouteNoError :
    ∀ (l : List ProposalData) (p : ProposalData),
      analyzeProposalsRoute l = AnalyzeRoute.single p → pyTruthyOpt p.error = false := by
  intro l p h
  unfold analyzeProposalsRoute at h
  by_cases h1 : l.isEmpty
  · simp [h1] at h
  · by_cases h2 : (validProposals l).length = 0
    · simp [h1, h2] at h
    · by_cases h3 : (validProposals l).length = 1
      · simp [h1, h2, h3] at h
        have hne : validProposals l ≠ [] := by
          intro e; rw [e] at h2; exact h2 rfl
        have hp : p ∈ validProposals l := h ▸ headD_mem hne emptyProposal
        have := (List.mem_filter.mp hp).2
        simpa using this
      · simp [h1, h2, h3] at h

/-- Helper for C8: the multi-record branch of the shared analyzer dispatch
only ever receives error-free records. -/
theorem multiRouteNoError :
    ∀ (l m : List ProposalData) (p : ProposalData),
      analyzeProposalsRoute l = AnalyzeRoute.multi m → p ∈ m →
        pyTruthyOpt p.error = false := by
  intro l m p h hp
  unfold analyzeProposalsRoute at h
  by_cases h1 : l.isEmpty
  · simp [h1] at h
  · by_cases h2 : (validProposals l).length = 0
    · simp [h1, h2] at h
    · by_cases h3 : (validProposals l).length = 1
      · simp [h1, h2, h3] at h
      · simp [h1, h2, h3] at h
        subst h
        have := (List.mem_filter.mp hp).2
        simpa using this

/-- C8: every pipeline filters error-tagged records out before its Analysis
Dispatcher runs while the response still echoes the precomputed ids and
links; the three dispatcher entry points route only error-free records to
their single/multi handlers; and on the dynamic route the echoed ids are
exactly the requested ids even when fetches produced error records. -/
theorem errorRecordsFilteredBeforeDispatch :
    (∀ (ids links : List String) (fetched : List ProposalData)
        (analyze : List ProposalData → String),
      (summaryResponse ids links fetched analyze).ids = ids ∧
        (summaryResponse ids links fetched analyze).links = links ∧
        ∀ p ∈ validProposals fetched, pyTruthyOpt p.error = false) ∧
    (∀ (l : List ProposalData) (p : ProposalData),
      analyzeProposalsRoute l = AnalyzeRoute.single p → pyTruthyOpt p.error = false) ∧
    (∀ (l m : List ProposalData) (p : ProposalData),
      analyzeProposalsRoute l = AnalyzeRoute.multi m → p ∈ m →
        pyTruthyOpt p.error = false) ∧
    (∀ (l : List ProposalData) (p : ProposalData),
      accountabilityRoute l = AnalyzeRoute.single p → pyTruthyOpt p.error = false) ∧
    (∀ (l m : List ProposalData) (p : ProposalData),
      accountabilityRoute l = AnalyzeRoute.multi m → p ∈ m →
        pyTruthyOpt p.error = false) ∧
    (∀ (l : List ProposalData) (p : ProposalData),
      generalChatRoute l = AnalyzeRoute.single p → pyTruthyOpt p.error = false) ∧
    (∀ (l m : List ProposalData) (p : ProposalData),
      generalChatRoute l = AnalyzeRoute.multi m → p ∈ m →
        pyTruthyOpt p.error = false) ∧
    (∀ (ri : RoutingInfo) (fetch : List String → String → List ProposalData),
      ri.ID ≠ [] → ∃ pl, processDynamicRoute ri fetch = Except.ok (ri.ID, [], pl)) := by
  refine ⟨?_, singleRouteNoError, multiRouteNoError,
    fun l p h => singleRouteNoError l p h, fun l m p h hp => multiRouteNoError l m p h hp,
    fun l p h => singleRouteNoError l p h, fun l m p h hp => multiRouteNoError l m p h hp,
    ?_⟩
  · intro ids links fetched analyze
    refine ⟨?_, ?_, ?_⟩
    · by_cases h : (validProposals fetched).isEmpty <;> simp [summaryResponse, h]
    · by_cases h : (validProposals fetched).isEmpty <;> simp [summaryResponse, h]
    · intro p hp
      have := (List.mem_filter.mp hp).2
      simpa using this
  · intro ri fetch hne
    have hemp : ri.ID.isEmpty = false := by
      cases hid : ri.ID with
      | nil => exact absurd hid hne
      | cons a b => rfl
    refine ⟨(fetch ri.ID ri.proposal_type).map
      fun p => { p with calculated_reward := calculateReward p }, ?_⟩
    simp [processDynamicRoute, hemp]

/-- C8 witness: with one valid and one errored record the dispatcher's
single branch receives the error-free record, and the dynamic route echoes
the requested ids even though the fetch returned an error record. -/
theorem errorRecordsFilteredBeforeDispatch_witness :
    pyTruthyOpt emptyProposal.error = false ∧
      ∃ pl, processDynamicRoute
          { data_source := "dynamic", ID := ["7"], proposal_type := "ReferendumV2",
            keywords := "" } (fun _ _ => [errorProposal]) =
        Except.ok (["7"], [], pl) :=
  ⟨errorRecordsFilteredBeforeDispatch.2.1 [emptyProposal, errorProposal] emptyProposal rfl,
    errorRecordsFilteredBeforeDispatch.2.2.2.2.2.2.2
      { data_source := "dynamic", ID := ["7"], proposal_type := "ReferendumV2", keywords := "" }
      (fun _ _ => [errorProposal]) (by simp)⟩

/-- C10: for every non-empty proposal list reaching the search-route
analysis step, the result is the deterministic fallback string naming the
`TypeError` from the unexpected `custom_prompt` keyword argument — never the
analyzers' own output. -/
theorem algoliaAnalysisAlwaysFallback :
    ∀ (singleBody : ProposalData → String) (compareBody : List ProposalData → String)
      (prompt : String) (l : List ProposalData), l ≠ [] →
      processAlgoliaResultWithGemini singleBody compareBody prompt l =
        "Found " ++ toString l.length ++ " relevant proposal(s) for your query \x27" ++
          prompt ++ "\x27, but AI analysis encountered an error: " ++
          (if l.length = 1 then pyUnexpectedKwargError "analyze_single_proposal" "custom_prompt"
           else pyUnexpectedKwargError "compare_proposals" "custom_prompt") := by
  intro sb cb prompt l hne
  have hemp : l.isEmpty = false := by
    cases l with
    | nil => exact absurd rfl hne
    | cons a b => rfl
  have hck1 : pyCheckKwargs "analyze_single_proposal" analyzeSingleProposalParams
      ["custom_prompt"] =
      Except.error (pyUnexpectedKwargError "analyze_single_proposal" "custom_prompt") := rfl
  have hck2 : pyCheckKwargs "compare_proposals" compareProposalsParams ["custom_prompt"] =
      Except.error (pyUnexpectedKwargError "compare_proposals" "custom_prompt") := rfl
  by_cases h1 : l.length = 1
  · simp [processAlgoliaResultWithGemini, hemp, h1, hck1, Except.map]
  · simp [processAlgoliaResultWithGemini, hemp, h1, hck2, Except.map]

/-- C7: the mode gating of the Heuristic ID Extractor.  Conservative part:
for every prompt containing an http(s) URL, any candidate whose (lowered)
text occurs inside a URL — in particular a 3+ digit run occurring only
there — is excluded from the returned id set.  Permissive part: for every
prompt with no URL, every bare standalone 3+ digit run is included. -/
theorem heuristicExtractorModeGating :
    (∀ (text s : String) (a mid b scheme : List Char),
        (scheme = "http://".data ∨ scheme = "https://".data) →
        (lowerStr text).data = a ++ scheme ++ mid ++ (lowerStr s).data ++ b →
        (∀ c ∈ mid, c.isWhitespace = false) →
        s ∉ fallbackExtractionIds text) ∧
    (∀ (text s : String) (pre post : List Char),
        text.data = pre ++ s.data ++ post →
        (∀ c ∈ s.data, c.isDigit = true) →
        3 ≤ s.data.length →
        (∀ c, pre.getLast? = some c → wordChar c = false) →
        (∀ c, post.head? = some c → wordChar c = false) →
        hasUrls text = false →
        s ∈ fallbackExtractionIds text) := by
  constructor
  · intro text s a mid b scheme hs hdec hmid
    have hdec' : (lowerStr text).data =
        a ++ (scheme ++ (mid ++ ((lowerStr s).data ++ b))) := by
      rw [hdec]
      simp [List.append_assoc]
    have hurl : hasUrls text = true := by
      rcases hs with rfl | rfl
      · have hcs : containsSeq "http://".data (lowerStr text).data = true :=
          (containsSeq_iff _ _).mpr ⟨a, mid ++ ((lowerStr s).data ++ b), by
            rw [hdec']; simp [List.append_assoc]⟩
        simp [hasUrls, hcs]
      · have hcs : containsSeq "https://".data (lowerStr text).data = true :=
          (containsSeq_iff _ _).mpr ⟨a, mid ++ ((lowerStr s).data ++ b), by
            rw [hdec']; simp [List.append_assoc]⟩
        simp [hasUrls, hcs]
    have hinurl : inUrl s text = true := by
      rw [inUrl, hdec']
      exact inUrlScan_complete (lowerStr s).data a mid b scheme hs hmid
    intro hmem
    rw [fallbackExtractionIds, hurl] at hmem
    exact urlModeIds_not_mem hinurl (by simpa using hmem)
  · intro text s pre post hdec hdig hlen hpreL hpostH hurl
    have hfuel : pre.length + s.data.length + post.length + 1 ≤
        (pre ++ s.data ++ post).length + 1 := by
      simp only [List.length_append]
      omega
    have hmem : s.data ∈ scanAll bareNumberMatcher ((pre ++ s.data ++ post).length + 1) false
        (pre ++ s.data ++ post) :=
      scanAll_bare_complete hdig hlen hpostH ((pre ++ s.data ++ post).length + 1) pre false
        (fun _ => rfl) hpreL hfuel
    have hfind : s ∈ findMatches bareNumberMatcher text := by
      rw [findMatches]
      refine List.mem_map.mpr ⟨s.data, ?_, string_eta s⟩
      rw [hdec]
      exact hmem
    have hallDig : allDigits s.data = true := by
      have hne : s.data ≠ [] := by
        intro e
        rw [e] at hlen
        exact absurd hlen (by decide)
      simp only [allDigits, List.all_eq_true, Bool.and_eq_true, Bool.not_eq_true']
      refine ⟨by simp [hne], hdig⟩
    have hlen' : 3 ≤ s.length := hlen
    have hperm : s ∈ permissiveIds text := by
      rw [permissiveIds]
      refine List.mem_append_right _ ?_
      refine mem_foldr_permKeep _ s ?_ hallDig hlen'
      exact List.mem_append_right _ hfind
    rw [fallbackExtractionIds, hurl]
    simpa using hperm

/-- C7 witness: a digit run inside a URL is excluded in conservative mode
and a bare digit run with no URL present is included in permissive mode. -/
theorem heuristicExtractorModeGating_witness :
    "1679" ∉ fallbackExtractionIds "Check https://x.io/referenda/1679 now" ∧
      "321" ∈ fallbackExtractionIds "see 321 ok" :=
  ⟨heuristicExtractorModeGating.1 "Check https://x.io/referenda/1679 now" "1679"
      "check ".data "x.io/referenda/".data " now".data "https://".data
      (Or.inr rfl) (by decide) (by decide),
    heuristicExtractorModeGating.2 "see 321 ok" "321" "see ".data " ok".data
      (by decide) (by decide) (by decide)
      (fun c hc => by
        cases hc
        rfl)
      (fun c hc => by
        cases hc
        rfl)
      (by decide)⟩

/-- C9 counterexample: the prompt `"is ai up"` has no extractable id and no
stop words, yet the fallback router's keywords are empty because the code
also drops every token of length at most 2 — not only the stop-word list as
claimed. -/
theorem routerKeywordsDropShortTokens :
    routeIds "is ai up" = [] ∧
      (fallbackRoutingLogic "is ai up").keywords = "" ∧
      specSearchKeywordsOnlyStopwords "is ai up" = "is ai up" ∧
      ("" : String) ≠ "is ai up" :=
  ⟨by decide, by decide, by decide, by decide⟩

/-- C9 (amended): when the id patterns find no numeric id, the fallback
router returns a SEARCH (algolia) decision whose keywords are the lowered
prompt's word tokens with the fixed stop-word list and every token of
length at most two removed, the first five remaining tokens joined by
spaces. -/
theorem routerFallbackKeywords :
    ∀ prompt : String, routeIds prompt = [] →
      fallbackRoutingLogic prompt =
        { data_source := "algolia", ID := [], proposal_type := "",
          keywords := String.intercalate " "
            (((wordTokens (lowerStr prompt)).filter fun w =>
                !stopWordsRouting.contains w && 2 < w.length).take 5) } := by
  intro prompt h
  rw [fallbackRoutingLogic, h]
  rfl

/-- C9 witness: a keyword prompt with no ids. -/
theorem routerFallbackKeywords_witness :
    fallbackRoutingLogic "Tell me about clarys proposal" =
      { data_source := "algolia", ID := [], proposal_type := "",
        keywords := String.intercalate " "
          (((wordTokens (lowerStr "Tell me about clarys proposal")).filter fun w =>
              !stopWordsRouting.contains w && 2 < w.length).take 5) } :=
  routerFallbackKeywords "Tell me about clarys proposal" (by decide)

/-- C10 witness: the single-record case at a concrete input. -/
theorem algoliaAnalysisAlwaysFallback_witness :
    processAlgoliaResultWithGemini (fun _ => "S") (fun _ => "C") "q" [emptyProposal] =
      "Found " ++ toString ([emptyProposal].length) ++
        " relevant proposal(s) for your query \x27q\x27, but AI analysis encountered an error: " ++
        (if [emptyProposal].length = 1 then
          pyUnexpectedKwargError "analyze_single_proposal" "custom_prompt"
         else pyUnexpectedKwargError "compare_proposals" "custom_prompt") :=
  algoliaAnalysisAlwaysFallback (fun _ => "S") (fun _ => "C") "q" [emptyProposal] (by simp)

end Clarys
